import Mathlib

/-!
Verification of the risk-overlay synchronization engine of the SF crime
mapper front end (`frontend/src/App.jsx` plus its API module).

The development shallowly embeds the JavaScript source:

* JavaScript numbers that flow through the risk pipeline are modelled by
  `JsNum` (finite rational, `NaN`, or an infinity), since the code only
  passes risks through `Number.isFinite` and never does arithmetic on them.
* The feature-id map `idMapRef.current` is a JavaScript object, modelled as
  an ordered association list with JS assignment semantics (`objInsert`:
  updating an existing key keeps its position, a new key is appended).
  `Object.entries` enumeration of integer-like keys differs in order from
  insertion order in JS; the final painted state is order-independent
  because slots stored in the map are pairwise distinct, so this does not
  affect any theorem below.
* `paintChoropleth` is split at its single `await` point into the
  synchronous issuance prefix (`paintIssue`) and the continuation that runs
  when the fetch settles (`paintResolve`), with the fetch outcome supplied
  as a `FetchResult` value.  This mirrors the cooperative-scheduling model:
  interleavings of concurrent attempts are sequences of `paintIssue` /
  `paintResolve` steps.
-/

/-- A JavaScript number as it appears in the risk pipeline: a finite value
(modelled as a rational), `NaN`, or one of the infinities. -/
inductive JsNum where
  | nan : JsNum
  | inf : JsNum
  | ninf : JsNum
  | fin (q : ℚ) : JsNum
deriving DecidableEq

/-- `Number.isFinite`. -/
def JsNum.isFinite : JsNum → Bool
  | .fin _ => true
  | _ => false

/-- A GeoJSON feature `id`: a string or a number. -/
inductive JsId where
  | str (s : String) : JsId
  | num (n : Int) : JsId
deriving DecidableEq

/-- `String(id)` for a feature id. -/
def JsId.toStr : JsId → String
  | .str s => s
  | .num n => toString n

/-- JavaScript `a || b` on two optional strings (`undefined` is `none`;
the empty string is falsy). Used for `f.properties?.neighborhood ||
f.properties?.name`. -/
def jsOrStr : Option String → Option String → Option String
  | some s, b => if s = "" then b else some s
  | none, b => b

/-- JavaScript `s || null` on an optional string: `null`/`undefined` and the
empty string collapse to `null`.  Used for `setServedWeek(resp.served_week
|| null)`. -/
def jsOrNull : Option String → Option String
  | some s => if s = "" then none else some s
  | none => none

/-- `e?.message || "Failed to load data."`: a missing or empty message falls
back to the default error text. -/
def errOrDefault : Option String → String
  | some s => if s = "" then "Failed to load data." else s
  | none => "Failed to load data."

/-- A prediction record from the backend: `{ neighborhood_id, risk, prob?,
mean_incidents? }`. -/
structure PredRec where
  neighborhood_id : String
  risk : JsNum
  prob : Option JsNum := none
  mean_incidents : Option JsNum := none
deriving DecidableEq

/-- A fetch response body: a `predictions` array, and (for `/api/spike`) an
optional `served_week` label. The forecast branch never reads
`served_week`. -/
structure Response where
  predictions : List PredRec
  served_week : Option String := none
deriving DecidableEq

/-- How an awaited fetch settles: fulfilled with a response, or rejected
with an optional error message (`e?.message`). -/
inductive FetchResult where
  | ok (resp : Response) : FetchResult
  | fail (msg : Option String) : FetchResult
deriving DecidableEq

/-- The display mode: `"forecast"` or `"spike"`. -/
inductive Mode where
  | forecast : Mode
  | spike : Mode
deriving DecidableEq

/-- A raw GeoJSON feature as far as indexing is concerned:
`properties?.neighborhood`, `properties?.name`, and `f.id`. -/
structure RawFeature where
  neighborhood : Option String := none
  name : Option String := none
  fid : Option JsId := none
deriving DecidableEq

/-- `properties?.neighborhood || properties?.name`. -/
def nameProp (f : RawFeature) : Option String :=
  jsOrStr f.neighborhood f.name

/-- `String(name ?? f.id ?? idx)`: the natural key of the feature at
position `idx`. -/
def featureKey (f : RawFeature) (idx : Nat) : String :=
  match nameProp f with
  | some s => s
  | none =>
    match f.fid with
    | some i => i.toStr
    | none => toString idx

/-- JavaScript object assignment `m[k] = v` on an ordered association list:
an existing key is updated in place, a new key is appended. -/
def objInsert (m : List (String × Nat)) (k : String) (v : Nat) :
    List (String × Nat) :=
  if m.any (fun e => e.1 = k) then
    m.map (fun e => if e.1 = k then (k, v) else e)
  else
    m ++ [(k, v)]

/-- Property read `m[k]` on the ordered association list. -/
def objLookup (m : List (String × Nat)) (k : String) : Option Nat :=
  (m.find? (fun e => e.1 = k)).map Prod.snd

/-- The indexing loop of `onLoad`:
`raw.features.map((f, idx) => { const key = String(name ?? f.id ?? idx);
idMapRef.current[key] = idx; return { ...f, id: idx }; })`,
carrying the running position `idx` and the object built so far. -/
def buildIdMapAux : List RawFeature → Nat → List (String × Nat) →
    List (String × Nat)
  | [], _, m => m
  | f :: fs, idx, m => buildIdMapAux fs (idx + 1) (objInsert m (featureKey f idx) idx)

/-- The feature-id map `idMapRef.current` produced by `onLoad` from the
neighborhood collection. -/
def buildIdMap (fs : List RawFeature) : List (String × Nat) :=
  buildIdMapAux fs 0 []

/-- `new Map(resp.predictions.map((p) => [String(p.neighborhood_id), p]))`:
later entries with the same key overwrite earlier ones. -/
def mkByName (l : List PredRec) : String → Option PredRec :=
  l.foldl (fun m p => fun k => if k = p.neighborhood_id then some p else m k)
    (fun _ => none)

/-- `m.setFeatureState({ source: "neigh", id: i }, { risk: v })` on the
feature-state store, modelled as a function from slot to stored risk. -/
def setRisk (fs : Nat → Option JsNum) (i : Nat) (v : JsNum) :
    Nat → Option JsNum :=
  fun j => if j = i then some v else fs j

/-- The value written for one index entry:
`const risk = p ? Number(p.risk) : 0;`
`{ risk: Number.isFinite(risk) ? risk : 0 }`. -/
def renderRisk (p : Option PredRec) : JsNum :=
  match p with
  | some p => if p.risk.isFinite then p.risk else JsNum.fin 0
  | none => JsNum.fin 0

/-- The reset loop: `for (let i = 0; i < featureCountRef.current; i++)
m.setFeatureState({ ... id: i }, { risk: 0 })`. -/
def resetPass (count : Nat) (fs : Nat → Option JsNum) : Nat → Option JsNum :=
  (List.range count).foldl (fun s i => setRisk s i (JsNum.fin 0)) fs

/-- The apply loop: `for (const [name, idx] of Object.entries(idMapRef.current))
m.setFeatureState({ ... id: Number(idx) }, { risk: ... })`. -/
def applyPass (entries : List (String × Nat)) (byName : String → Option PredRec)
    (fs : Nat → Option JsNum) : Nat → Option JsNum :=
  entries.foldl (fun s e => setRisk s e.2 (renderRisk (byName e.1))) fs

/-- The observable state of the component: the request counter
`requestIdRef`, the `loading`/`err`/`servedWeek` UI state, the prediction
cache `predsByNameRef`, the feature-state store, whether the map and its
`"neigh"` source exist, and the load-time index (`idMapRef`,
`featureCountRef`). -/
structure AppState where
  requestId : Nat
  loading : Bool
  err : String
  servedWeek : Option String
  preds : String → Option PredRec
  features : Nat → Option JsNum
  mapReady : Bool
  idMap : List (String × Nat)
  featureCount : Nat

/-- The body of the `if (currentMode === "spike")` branch after the stale
guard: build `byName`, store it in `predsByNameRef`, set the served week,
reset every slot's risk to 0, then apply the per-key risks. -/
def spikeBranch (resp : Response) (st : AppState) : AppState :=
  let byName := resp.predictions.foldl
    (fun m p => fun k => if k = p.neighborhood_id then some p else m k)
    (fun _ => none)
  let reset := (List.range st.featureCount).foldl
    (fun s i => setRisk s i (JsNum.fin 0)) st.features
  let applied := st.idMap.foldl
    (fun s e => setRisk s e.2 (renderRisk (byName e.1))) reset
  { st with preds := byName, servedWeek := jsOrNull resp.served_week,
            features := applied }

/-- The body of the forecast (`else`) branch after the stale guard: same as
the spike branch except that `served_week` is never read. -/
def forecastBranch (resp : Response) (st : AppState) : AppState :=
  let byName := resp.predictions.foldl
    (fun m p => fun k => if k = p.neighborhood_id then some p else m k)
    (fun _ => none)
  let reset := (List.range st.featureCount).foldl
    (fun s i => setRisk s i (JsNum.fin 0)) st.features
  let applied := st.idMap.foldl
    (fun s e => setRisk s e.2 (renderRisk (byName e.1))) reset
  { st with preds := byName, features := applied }

/-- The synchronous prefix of `paintChoropleth`: the early return when the
map or its `"neigh"` source is missing, then `setLoading(true)`,
`setErr("")`, `setServedWeek(null)`, and `const rid = ++requestIdRef.current`.
Returns the new state and the issued epoch (if any). -/
def paintIssue (st : AppState) : AppState × Option Nat :=
  if st.mapReady then
    ({ st with loading := true, err := "", servedWeek := none,
               requestId := st.requestId + 1 },
     some (st.requestId + 1))
  else
    (st, none)

/-- The continuation of `paintChoropleth` once the awaited fetch settles:
on fulfillment, the stale guard `if (rid !== requestIdRef.current) return;`
then the mode branch; on rejection, the `catch` block `setErr(e?.message ||
"Failed to load data.")`; in both cases the `finally` block
`if (rid === requestIdRef.current) setLoading(false)`. -/
def paintResolve (mode : Mode) (rid : Nat) (res : FetchResult)
    (st : AppState) : AppState :=
  match res with
  | .ok resp =>
    if rid = st.requestId then
      match mode with
      | .spike => { spikeBranch resp st with loading := false }
      | .forecast => { forecastBranch resp st with loading := false }
    else st
  | .fail msg =>
    let st1 := { st with err := errOrDefault msg }
    if rid = st.requestId then { st1 with loading := false } else st1

/-- `nextEpoch` on the request counter: `const rid = ++requestIdRef.current`
returns the incremented value and leaves the counter at it. -/
def nextEpoch (c : Nat) : Nat × Nat := (c + 1, c + 1)

/-- `isCurrent`: `rid === requestIdRef.current`. -/
def isCurrent (e c : Nat) : Bool := e = c

/-- `n` successive `nextEpoch` calls from counter value `c`: the final
counter and the list of issued epochs in issuance order. -/
def runEpochs : Nat → Nat → Nat × List Nat
  | 0, c => (c, [])
  | n + 1, c => ((runEpochs n (c + 1)).1, (c + 1) :: (runEpochs n (c + 1)).2)

/-! ### Supporting lemmas on the painting passes -/

lemma setRisk_same (fs : Nat → Option JsNum) (i : Nat) (v : JsNum) :
    setRisk fs i v i = some v := by
  simp [setRisk]

lemma setRisk_other (fs : Nat → Option JsNum) (i j : Nat) (v : JsNum)
    (h : j ≠ i) : setRisk fs i v j = fs j := by
  simp [setRisk, h]

lemma resetPass_lt (count : Nat) (fs : Nat → Option JsNum) (i : Nat)
    (h : i < count) : resetPass count fs i = some (JsNum.fin 0) := by
  induction count with
  | zero => omega
  | succ n ih =>
    unfold resetPass
    rw [List.range_succ, List.foldl_append]
    rcases Nat.lt_succ_iff_lt_or_eq.mp h with h' | h'
    · simp only [List.foldl_cons, List.foldl_nil]
      rw [setRisk_other _ _ _ _ (Nat.ne_of_lt h')]
      exact ih h'
    · subst h'
      simp only [List.foldl_cons, List.foldl_nil]
      exact setRisk_same _ _ _

lemma resetPass_ge (count : Nat) (fs : Nat → Option JsNum) (i : Nat)
    (h : count ≤ i) : resetPass count fs i = fs i := by
  induction count with
  | zero => rfl
  | succ n ih =>
    unfold resetPass
    rw [List.range_succ, List.foldl_append]
    simp only [List.foldl_cons, List.foldl_nil]
    rw [setRisk_other _ _ _ _ (by omega)]
    exact ih (by omega)

lemma applyPass_not_mem (entries : List (String × Nat))
    (byName : String → Option PredRec) (fs : Nat → Option JsNum) (s : Nat)
    (h : s ∉ entries.map Prod.snd) : applyPass entries byName fs s = fs s := by
  induction entries generalizing fs with
  | nil => rfl
  | cons e l ih =>
    simp only [List.map_cons, List.mem_cons, not_or] at h
    unfold applyPass
    simp only [List.foldl_cons]
    rw [show (l.foldl (fun s e => setRisk s e.2 (renderRisk (byName e.1)))
          (setRisk fs e.2 (renderRisk (byName e.1)))) = applyPass l byName
          (setRisk fs e.2 (renderRisk (byName e.1))) from rfl]
    rw [ih _ h.2]
    exact setRisk_other _ _ _ _ h.1

lemma applyPass_mem (entries : List (String × Nat))
    (byName : String → Option PredRec) (fs : Nat → Option JsNum)
    (k : String) (s : Nat)
    (hnd : (entries.map Prod.snd).Nodup) (hmem : (k, s) ∈ entries) :
    applyPass entries byName fs s = some (renderRisk (byName k)) := by
  induction entries generalizing fs with
  | nil => cases hmem
  | cons e l ih =>
    simp only [List.map_cons, List.nodup_cons] at hnd
    unfold applyPass
    simp only [List.foldl_cons]
    rw [show (l.foldl (fun s e => setRisk s e.2 (renderRisk (byName e.1)))
          (setRisk fs e.2 (renderRisk (byName e.1)))) = applyPass l byName
          (setRisk fs e.2 (renderRisk (byName e.1))) from rfl]
    rcases List.mem_cons.mp hmem with h | h
    · cases h
      rw [applyPass_not_mem _ _ _ _ hnd.1]
      exact setRisk_same _ _ _
    · exact ih _ hnd.2 h

/-! ### Case lemmas for `paintResolve` -/

lemma spikeBranch_features (resp : Response) (st : AppState) :
    (spikeBranch resp st).features =
      applyPass st.idMap (mkByName resp.predictions)
        (resetPass st.featureCount st.features) := rfl

lemma forecastBranch_features (resp : Response) (st : AppState) :
    (forecastBranch resp st).features =
      applyPass st.idMap (mkByName resp.predictions)
        (resetPass st.featureCount st.features) := rfl

lemma paintResolve_ok_stale (mode : Mode) (rid : Nat) (resp : Response)
    (st : AppState) (h : rid ≠ st.requestId) :
    paintResolve mode rid (.ok resp) st = st := by
  simp [paintResolve, h]

lemma paintResolve_ok_current_spike (rid : Nat) (resp : Response)
    (st : AppState) (h : rid = st.requestId) :
    paintResolve .spike rid (.ok resp) st =
      { spikeBranch resp st with loading := false } := by
  simp [paintResolve, h]

lemma paintResolve_ok_current_forecast (rid : Nat) (resp : Response)
    (st : AppState) (h : rid = st.requestId) :
    paintResolve .forecast rid (.ok resp) st =
      { forecastBranch resp st with loading := false } := by
  simp [paintResolve, h]

lemma paintResolve_fail_current (mode : Mode) (rid : Nat) (msg : Option String)
    (st : AppState) (h : rid = st.requestId) :
    paintResolve mode rid (.fail msg) st =
      { st with err := errOrDefault msg, loading := false } := by
  simp [paintResolve, h]

lemma paintResolve_fail_stale (mode : Mode) (rid : Nat) (msg : Option String)
    (st : AppState) (h : rid ≠ st.requestId) :
    paintResolve mode rid (.fail msg) st = { st with err := errOrDefault msg } := by
  simp [paintResolve, h]

lemma paintResolve_requestId (mode : Mode) (rid : Nat) (res : FetchResult)
    (st : AppState) : (paintResolve mode rid res st).requestId = st.requestId := by
  cases res with
  | ok resp =>
    by_cases h : rid = st.requestId
    · cases mode <;> simp [paintResolve, h, spikeBranch, forecastBranch]
    · simp [paintResolve, h]
  | fail msg =>
    by_cases h : rid = st.requestId <;> simp [paintResolve, h]

lemma paintResolve_err_indep (mode : Mode) (rid : Nat) (res : FetchResult)
    (st : AppState) (x : String) :
    (paintResolve mode rid res { st with err := x }).preds
        = (paintResolve mode rid res st).preds
    ∧ (paintResolve mode rid res { st with err := x }).features
        = (paintResolve mode rid res st).features
    ∧ (paintResolve mode rid res { st with err := x }).servedWeek
        = (paintResolve mode rid res st).servedWeek := by
  cases res with
  | ok resp =>
    by_cases h : rid = st.requestId
    · cases mode <;>
        simp [paintResolve, h, spikeBranch, forecastBranch]
    · simp [paintResolve, h]
  | fail msg =>
    by_cases h : rid = st.requestId <;> simp [paintResolve, h]

/-! ### Concrete sample data used by witnesses and counterexamples -/

/-- A component state as it looks right after the initial load painted
nothing yet: two indexed regions, one attempt issued. -/
def demoState : AppState :=
  { requestId := 1, loading := true, err := "", servedWeek := none,
    preds := fun _ => none, features := fun _ => none, mapReady := true,
    idMap := [("Mission", 0), ("SoMa", 1)], featureCount := 2 }

/-- A spike response covering only the `"Mission"` region. -/
def demoResp : Response :=
  { predictions := [{ neighborhood_id := "Mission", risk := JsNum.fin 62 }],
    served_week := some "2024-W09" }

/-- A response carrying a negative risk value. -/
def negResp : Response :=
  { predictions := [{ neighborhood_id := "Mission", risk := JsNum.fin (-5) }] }

/-- A response carrying a risk value above 100. -/
def bigResp : Response :=
  { predictions := [{ neighborhood_id := "Mission", risk := JsNum.fin 137 }] }

/-- A component state before the map or its `"neigh"` source exists. -/
def bareState : AppState :=
  { requestId := 0, loading := false, err := "", servedWeek := none,
    preds := fun _ => none, features := fun _ => none, mapReady := false,
    idMap := [], featureCount := 0 }

/-! ### Claim theorems -/

/-- Claim C2: on every accepted response the handler first resets every slot
in `[0, featureCount)` to risk `0` and then applies the per-key risks over
the Region Index; consequently a slot whose index entry's key is absent from
the accepted response renders risk `0` afterwards (whatever a previous
accepted response had written there), and a slot not written by the apply
pass keeps the reset baseline `0`. -/
theorem reset_completeness (mode : Mode) (rid : Nat) (resp : Response)
    (st : AppState) (hcur : rid = st.requestId)
    (hnd : (st.idMap.map Prod.snd).Nodup)
    (k : String) (s : Nat) (hmem : (k, s) ∈ st.idMap)
    (habs : mkByName resp.predictions k = none) :
    (paintResolve mode rid (.ok resp) st).features =
      applyPass st.idMap (mkByName resp.predictions)
        (resetPass st.featureCount st.features)
    ∧ (∀ i, i < st.featureCount → i ∉ st.idMap.map Prod.snd →
        (paintResolve mode rid (.ok resp) st).features i = some (JsNum.fin 0))
    ∧ (paintResolve mode rid (.ok resp) st).features s = some (JsNum.fin 0) := by
  have hfeat : (paintResolve mode rid (.ok resp) st).features =
      applyPass st.idMap (mkByName resp.predictions)
        (resetPass st.featureCount st.features) := by
    cases mode
    · rw [paintResolve_ok_current_forecast _ _ _ hcur]
      exact forecastBranch_features _ _
    · rw [paintResolve_ok_current_spike _ _ _ hcur]
      exact spikeBranch_features _ _
  refine ⟨hfeat, ?_, ?_⟩
  · intro i hi hnotin
    rw [hfeat, applyPass_not_mem _ _ _ _ hnotin, resetPass_lt _ _ _ hi]
  · rw [hfeat, applyPass_mem _ _ _ _ _ hnd hmem, habs]
    rfl

/-- Witness for C2 at concrete data: `"SoMa"` (slot 1) is absent from
`demoResp`, so its rendered risk is `0` after the accepted response. -/
theorem reset_completeness_witness :
    (paintResolve .spike 1 (.ok demoResp) demoState).features 1 =
      some (JsNum.fin 0) :=
  (reset_completeness .spike 1 demoResp demoState rfl (by decide) "SoMa" 1
    (by decide) (by decide)).2.2

/-- Counterexample to claim C3 as stated: a negative response risk value is
not rendered as `0` — the accepted response with risk `-5` for `"Mission"`
(slot 0) leaves the rendering engine holding `-5`. -/
theorem clamp_claim_cex :
    (paintResolve .forecast 1 (.ok negResp) demoState).features 0 =
      some (JsNum.fin (-5))
    ∧ (JsNum.fin (-5) : JsNum) ≠ JsNum.fin 0 := by
  decide

/-- Claim C3 (amended): for an accepted response, a missing record or a
non-finite risk value (`NaN` or an infinity) renders as `0`, while every
finite risk value — including negative values and values above 100 such as
`137` — is written to the rendering engine unchanged. -/
theorem clamp_behavior (mode : Mode) (rid : Nat) (resp : Response)
    (st : AppState) (hcur : rid = st.requestId)
    (hnd : (st.idMap.map Prod.snd).Nodup)
    (k : String) (s : Nat) (hmem : (k, s) ∈ st.idMap) :
    (mkByName resp.predictions k = none →
      (paintResolve mode rid (.ok resp) st).features s = some (JsNum.fin 0))
    ∧ (∀ p, mkByName resp.predictions k = some p → p.risk.isFinite = false →
      (paintResolve mode rid (.ok resp) st).features s = some (JsNum.fin 0))
    ∧ (∀ p q, mkByName resp.predictions k = some p → p.risk = JsNum.fin q →
      (paintResolve mode rid (.ok resp) st).features s = some (JsNum.fin q)) := by
  have hfeat : (paintResolve mode rid (.ok resp) st).features =
      applyPass st.idMap (mkByName resp.predictions)
        (resetPass st.featureCount st.features) := by
    cases mode
    · rw [paintResolve_ok_current_forecast _ _ _ hcur]
      exact forecastBranch_features _ _
    · rw [paintResolve_ok_current_spike _ _ _ hcur]
      exact spikeBranch_features _ _
  refine ⟨?_, ?_, ?_⟩
  · intro habs
    rw [hfeat, applyPass_mem _ _ _ _ _ hnd hmem, habs]
    rfl
  · intro p hp hfin
    rw [hfeat, applyPass_mem _ _ _ _ _ hnd hmem, hp]
    simp [renderRisk, hfin]
  · intro p q hp hq
    rw [hfeat, applyPass_mem _ _ _ _ _ hnd hmem, hp]
    simp [renderRisk, hq, JsNum.isFinite]

/-- Witness for the amended C3: a risk of `137` is written unchanged. -/
theorem clamp_behavior_witness :
    (paintResolve .forecast 1 (.ok bigResp) demoState).features 0 =
      some (JsNum.fin 137) :=
  (clamp_behavior .forecast 1 bigResp demoState rfl (by decide) "Mission" 0
      (by decide)).2.2
    { neighborhood_id := "Mission", risk := JsNum.fin 137 } 137 (by decide) rfl

/-- Claim C5: a fetch failure whose epoch is still current surfaces the
error message, clears the loading indicator, and leaves the Prediction
Cache, every slot's rendered risk, and the served week exactly as the
previous accepted epoch left them. -/
theorem failure_atomicity (mode : Mode) (rid : Nat) (msg : Option String)
    (st : AppState) (hcur : rid = st.requestId) :
    (paintResolve mode rid (.fail msg) st).err = errOrDefault msg
    ∧ (paintResolve mode rid (.fail msg) st).preds = st.preds
    ∧ (paintResolve mode rid (.fail msg) st).features = st.features
    ∧ (paintResolve mode rid (.fail msg) st).servedWeek = st.servedWeek
    ∧ (paintResolve mode rid (.fail msg) st).loading = false := by
  rw [paintResolve_fail_current _ _ _ _ hcur]
  exact ⟨rfl, rfl, rfl, rfl, rfl⟩

/-- Witness for C5: a current-epoch failure surfaces its message and leaves
slot 0 untouched. -/
theorem failure_atomicity_witness :
    (paintResolve .spike 1 (.fail (some "boom")) demoState).err = "boom"
    ∧ (paintResolve .spike 1 (.fail (some "boom")) demoState).features 0 =
        demoState.features 0 := by
  have h := failure_atomicity .spike 1 (some "boom") demoState rfl
  exact ⟨h.1, congrFun h.2.2.1 0⟩

/-- Claim C8: the served week is reset to `null` at the start of every
synchronization attempt and is set to a non-null value only by an accepted
spike response whose `served_week` field is a non-empty string; a failed
fetch, a superseded result, and an accepted forecast response never change
it. -/
theorem served_week_lifecycle (mode : Mode) (rid : Nat) (res : FetchResult)
    (st : AppState) (hm : st.mapReady = true) :
    (paintIssue st).1.servedWeek = none
    ∧ (∀ msg, (paintResolve mode rid (.fail msg) st).servedWeek = st.servedWeek)
    ∧ (rid ≠ st.requestId → (paintResolve mode rid res st).servedWeek = st.servedWeek)
    ∧ (∀ resp, rid = st.requestId →
        (paintResolve .forecast rid (.ok resp) st).servedWeek = st.servedWeek)
    ∧ (∀ resp, rid = st.requestId →
        (paintResolve .spike rid (.ok resp) st).servedWeek =
          jsOrNull resp.served_week)
    ∧ jsOrNull none = none
    ∧ (∀ w, jsOrNull (some w) = none ↔ w = "") := by
  refine ⟨by simp [paintIssue, hm], ?_, ?_, ?_, ?_, rfl, ?_⟩
  · intro msg
    by_cases h : rid = st.requestId
    · rw [paintResolve_fail_current _ _ _ _ h]
    · rw [paintResolve_fail_stale _ _ _ _ h]
  · intro h
    cases res with
    | ok resp => rw [paintResolve_ok_stale _ _ _ _ h]
    | fail msg =>
      rw [paintResolve_fail_stale _ _ _ _ h]
  · intro resp h
    rw [paintResolve_ok_current_forecast _ _ _ h]
    rfl
  · intro resp h
    rw [paintResolve_ok_current_spike _ _ _ h]
    rfl
  · intro w
    constructor
    · intro h
      by_contra hw
      simp [jsOrNull, hw] at h
    · intro h
      simp [jsOrNull, h]

/-- Witness for C8: issuing an attempt resets the served week, and the
accepted spike `demoResp` then sets it to the served week it carries. -/
theorem served_week_lifecycle_witness :
    (paintIssue demoState).1.servedWeek = none
    ∧ (paintResolve .spike 1 (.ok demoResp) demoState).servedWeek =
        jsOrNull demoResp.served_week := by
  have h := served_week_lifecycle .spike 1 (.ok demoResp) demoState rfl
  exact ⟨h.1, h.2.2.2.2.1 demoResp rfl⟩

/-- Claim C9: given the same predictions array, the spike branch and the
forecast branch of the synchronizer compute identical final rendered risks
for every slot and identical prediction caches; they differ only in the
served-week update (and in which fetch produced the response). -/
theorem mode_branch_equivalence (r1 r2 : Response) (st : AppState)
    (hp : r1.predictions = r2.predictions) :
    (∀ i, (spikeBranch r1 st).features i = (forecastBranch r2 st).features i)
    ∧ (∀ k, (spikeBranch r1 st).preds k = (forecastBranch r2 st).preds k)
    ∧ (forecastBranch r2 st).servedWeek = st.servedWeek
    ∧ (spikeBranch r1 st).servedWeek = jsOrNull r1.served_week := by
  refine ⟨?_, ?_, rfl, rfl⟩
  · intro i
    simp [spikeBranch, forecastBranch, hp]
  · intro k
    simp [spikeBranch, forecastBranch, hp]

/-- Witness for C9 on `demoResp`: both branches render slot 0 alike. -/
theorem mode_branch_equivalence_witness :
    (spikeBranch demoResp demoState).features 0 =
      (forecastBranch demoResp demoState).features 0 :=
  (mode_branch_equivalence demoResp demoResp demoState rfl).1 0

/-- Claim C10: a parameter-change invocation that arrives before the map or
its region source exists returns without issuing an epoch and leaves the
entire observable state unchanged. -/
theorem pre_init_noop (st : AppState) (h : st.mapReady = false) :
    paintIssue st = (st, none) := by
  simp [paintIssue, h]

/-- Witness for C10 on the pre-initialization state. -/
theorem pre_init_noop_witness : paintIssue bareState = (bareState, none) :=
  pre_init_noop bareState rfl

lemma paintResolve_stale_frame (mode : Mode) (rid : Nat) (res : FetchResult)
    (s : AppState) (h : rid ≠ s.requestId) :
    (paintResolve mode rid res s).preds = s.preds
    ∧ (paintResolve mode rid res s).features = s.features
    ∧ (paintResolve mode rid res s).servedWeek = s.servedWeek := by
  cases res with
  | ok resp =>
    rw [paintResolve_ok_stale _ _ _ _ h]
    exact ⟨rfl, rfl, rfl⟩
  | fail msg =>
    rw [paintResolve_fail_stale _ _ _ _ h]
    exact ⟨rfl, rfl, rfl⟩

/-- Claim C1: issuance order wins.  A resolution whose epoch is no longer
the last issued never mutates the prediction cache, the feature-state
store, or the served week; and after epoch `e1` and then epoch `e2` are
issued, the final cache, rendered risks and served week equal those
produced by `e2`'s resolution alone — whether `e1` settles after `e2`
(first group) or before it (second group). -/
theorem issuance_order_wins (st : AppState) (hm : st.mapReady = true)
    (m1 m2 mode : Mode) (r1 r2 res : FetchResult) (rid : Nat) (s : AppState)
    (hstale : rid ≠ s.requestId) :
    ((paintResolve mode rid res s).preds = s.preds
      ∧ (paintResolve mode rid res s).features = s.features
      ∧ (paintResolve mode rid res s).servedWeek = s.servedWeek)
    ∧ ((paintResolve m1 (st.requestId + 1) r1
          (paintResolve m2 (st.requestId + 2) r2
            (paintIssue (paintIssue st).1).1)).preds =
        (paintResolve m2 (st.requestId + 2) r2
          (paintIssue (paintIssue st).1).1).preds
      ∧ (paintResolve m1 (st.requestId + 1) r1
          (paintResolve m2 (st.requestId + 2) r2
            (paintIssue (paintIssue st).1).1)).features =
        (paintResolve m2 (st.requestId + 2) r2
          (paintIssue (paintIssue st).1).1).features
      ∧ (paintResolve m1 (st.requestId + 1) r1
          (paintResolve m2 (st.requestId + 2) r2
            (paintIssue (paintIssue st).1).1)).servedWeek =
        (paintResolve m2 (st.requestId + 2) r2
          (paintIssue (paintIssue st).1).1).servedWeek)
    ∧ ((paintResolve m2 (st.requestId + 2) r2
          (paintResolve m1 (st.requestId + 1) r1
            (paintIssue (paintIssue st).1).1)).preds =
        (paintResolve m2 (st.requestId + 2) r2
          (paintIssue (paintIssue st).1).1).preds
      ∧ (paintResolve m2 (st.requestId + 2) r2
          (paintResolve m1 (st.requestId + 1) r1
            (paintIssue (paintIssue st).1).1)).features =
        (paintResolve m2 (st.requestId + 2) r2
          (paintIssue (paintIssue st).1).1).features
      ∧ (paintResolve m2 (st.requestId + 2) r2
          (paintResolve m1 (st.requestId + 1) r1
            (paintIssue (paintIssue st).1).1)).servedWeek =
        (paintResolve m2 (st.requestId + 2) r2
          (paintIssue (paintIssue st).1).1).servedWeek) := by
  have hst2 : ((paintIssue (paintIssue st).1).1).requestId = st.requestId + 2 := by
    simp [paintIssue, hm]
  refine ⟨paintResolve_stale_frame _ _ _ _ hstale, ?_, ?_⟩
  · have hrefId : (paintResolve m2 (st.requestId + 2) r2
        (paintIssue (paintIssue st).1).1).requestId = st.requestId + 2 := by
      rw [paintResolve_requestId, hst2]
    exact paintResolve_stale_frame _ _ _ _ (by rw [hrefId]; omega)
  · cases r1 with
    | ok resp =>
      rw [paintResolve_ok_stale _ _ _ _ (by rw [hst2]; omega)]
      exact ⟨rfl, rfl, rfl⟩
    | fail msg =>
      rw [paintResolve_fail_stale _ _ _ _ (by rw [hst2]; omega)]
      exact paintResolve_err_indep _ _ _ _ _

/-- Witness for C1: with `demoState` (one epoch already issued), epochs 2
and 3 are issued; epoch 2 fails late, yet slot 0 renders epoch 3's data. -/
theorem issuance_order_wins_witness :
    (paintResolve .spike 3 (.ok demoResp)
        (paintResolve .forecast 2 (.fail (some "late"))
          (paintIssue (paintIssue demoState).1).1)).features 0 =
      (paintResolve .spike 3 (.ok demoResp)
        (paintIssue (paintIssue demoState).1).1).features 0 :=
  congrFun
    (issuance_order_wins demoState rfl .forecast .spike .forecast
      (.fail (some "late")) (.ok demoResp) (.ok demoResp) 5 demoState
      (by decide)).2.2.2.1 0

/-- Counterexample to claim C4 as stated: after epochs 2 and 3 are issued
on `demoState`, epoch 2 is superseded, yet its failure still surfaces the
error message `"network down"` (the `catch` block runs `setErr`
unconditionally — only the `finally` loading-clear checks currency). -/
theorem superseded_error_cex :
    (2 : Nat) ≠ ((paintIssue (paintIssue demoState).1).1).requestId
    ∧ (paintResolve .forecast 2 (.fail (some "network down"))
        (paintIssue (paintIssue demoState).1).1).err = "network down"
    ∧ "network down" ≠ "" := by
  decide

/-- Claim C4 (amended): a fetch failure surfaces its error message whether
or not its epoch is still current — superseded failures are *not*
suppressed; currency gates only the loading-indicator clear.  Superseded
successes are discarded with no state change. -/
theorem superseded_error_behavior (mode : Mode) (rid : Nat)
    (msg : Option String) (st : AppState) :
    (paintResolve mode rid (.fail msg) st).err = errOrDefault msg
    ∧ (rid ≠ st.requestId →
        (paintResolve mode rid (.fail msg) st).loading = st.loading)
    ∧ (rid = st.requestId →
        (paintResolve mode rid (.fail msg) st).loading = false)
    ∧ (rid ≠ st.requestId → ∀ resp, paintResolve mode rid (.ok resp) st = st) := by
  refine ⟨?_, ?_, ?_, ?_⟩
  · by_cases h : rid = st.requestId
    · rw [paintResolve_fail_current _ _ _ _ h]
    · rw [paintResolve_fail_stale _ _ _ _ h]
  · intro h
    rw [paintResolve_fail_stale _ _ _ _ h]
  · intro h
    rw [paintResolve_fail_current _ _ _ _ h]
  · intro h resp
    exact paintResolve_ok_stale _ _ _ _ h

/-- Witness for the amended C4: the superseded failure's message is shown
while the loading indicator (owned by the newer epoch) stays on. -/
theorem superseded_error_behavior_witness :
    (paintResolve .forecast 2 (.fail (some "network down"))
        (paintIssue (paintIssue demoState).1).1).err = "network down"
    ∧ (paintResolve .forecast 2 (.fail (some "network down"))
        (paintIssue (paintIssue demoState).1).1).loading = true := by
  have h := superseded_error_behavior .forecast 2 (some "network down")
    (paintIssue (paintIssue demoState).1).1
  refine ⟨(h.1).trans (by decide), (h.2.1 (by decide)).trans (by decide)⟩

/-! ### Supporting lemmas on the feature-id object -/

lemma findMap_same (m : List (String × Nat)) (k : String) (v : Nat)
    (h : m.any (fun e => e.1 = k) = true) :
    (m.map (fun e => if e.1 = k then (k, v) else e)).find?
      (fun e => e.1 = k) = some (k, v) := by
  induction m with
  | nil => simp at h
  | cons e l ih =>
    by_cases he : e.1 = k
    · simp [List.find?, he]
    · simp only [List.any_cons, he, decide_False, Bool.false_or] at h
      simp [List.find?, he, ih h]

lemma findAppend_same (m : List (String × Nat)) (k : String) (v : Nat)
    (h : m.any (fun e => e.1 = k) = false) :
    (m ++ [(k, v)]).find? (fun e => e.1 = k) = some (k, v) := by
  induction m with
  | nil => simp [List.find?]
  | cons e l ih =>
    simp only [List.any_cons, Bool.or_eq_false_iff, decide_eq_false_iff_not] at h
    simp [List.find?, h.1, ih (by simpa using h.2)]

lemma objLookup_objInsert_same (m : List (String × Nat)) (k : String) (v : Nat) :
    objLookup (objInsert m k v) k = some v := by
  unfold objLookup objInsert
  by_cases h : m.any (fun e => e.1 = k)
  · rw [if_pos h, findMap_same m k v h]
    rfl
  · rw [if_neg h, findAppend_same m k v (Bool.eq_false_iff.mpr h)]
    rfl

lemma findMap_other (m : List (String × Nat)) (k : String) (v : Nat)
    (q : String) (hne : q ≠ k) :
    (m.map (fun e => if e.1 = k then (k, v) else e)).find?
      (fun e => e.1 = q) = m.find? (fun e => e.1 = q) := by
  induction m with
  | nil => rfl
  | cons e l ih =>
    by_cases he : e.1 = k
    · have h1 : ¬((k : String) = q) := fun h => hne h.symm
      have h2 : ¬(e.1 = q) := by rw [he]; exact h1
      simp [List.find?, he, h1, h2, ih]
    · by_cases hq : e.1 = q
      · simp [List.find?, he, hq, hne]
      · simp [List.find?, he, hq, ih]

lemma findAppend_other (m : List (String × Nat)) (k : String) (v : Nat)
    (q : String) (hne : q ≠ k) :
    (m ++ [(k, v)]).find? (fun e => e.1 = q) = m.find? (fun e => e.1 = q) := by
  induction m with
  | nil =>
    have h1 : ¬((k : String) = q) := fun h => hne h.symm
    simp [List.find?, h1]
  | cons e l ih =>
    by_cases hq : e.1 = q
    · simp [List.find?, hq]
    · simp [List.find?, hq, ih]

lemma objLookup_objInsert_other (m : List (String × Nat)) (k : String)
    (v : Nat) (q : String) (hne : q ≠ k) :
    objLookup (objInsert m k v) q = objLookup m q := by
  unfold objLookup objInsert
  by_cases h : m.any (fun e => e.1 = k)
  · rw [if_pos h, findMap_other m k v q hne]
  · rw [if_neg h, findAppend_other m k v q hne]

lemma buildIdMapAux_skip (fs : List RawFeature) (i : Nat)
    (m : List (String × Nat)) (k : String)
    (h : ∀ l : Fin fs.length, featureKey (fs.get l) (i + l.val) ≠ k) :
    objLookup (buildIdMapAux fs i m) k = objLookup m k := by
  induction fs generalizing i m with
  | nil => rfl
  | cons f l ih =>
    have h0 : featureKey f i ≠ k := by
      have := h ⟨0, by simp⟩
      simpa using this
    show objLookup (buildIdMapAux l (i + 1) (objInsert m (featureKey f i) i)) k
      = objLookup m k
    rw [ih (i + 1) _ ?_, objLookup_objInsert_other _ _ _ _ (Ne.symm h0)]
    intro l'
    have := h ⟨l'.val + 1, by simp only [List.length_cons]; exact Nat.succ_lt_succ l'.isLt⟩
    have harith : i + (l'.val + 1) = i + 1 + l'.val := by omega
    simpa [harith] using this

lemma buildIdMapAux_last (fs : List RawFeature) (i : Nat)
    (m : List (String × Nat)) (j : Fin fs.length)
    (h : ∀ l : Fin fs.length, j.val < l.val →
      featureKey (fs.get l) (i + l.val) ≠ featureKey (fs.get j) (i + j.val)) :
    objLookup (buildIdMapAux fs i m) (featureKey (fs.get j) (i + j.val)) =
      some (i + j.val) := by
  induction fs generalizing i m with
  | nil => exact absurd j.isLt (by simp)
  | cons f l ih =>
    rcases j with ⟨jv, hj⟩
    cases jv with
    | zero =>
      show objLookup (buildIdMapAux l (i + 1) (objInsert m (featureKey f i) i))
        (featureKey ((f :: l).get ⟨0, hj⟩) (i + 0)) = some (i + 0)
      have hget : ((f :: l).get ⟨0, hj⟩) = f := rfl
      rw [hget]
      rw [buildIdMapAux_skip l (i + 1) _ _ ?_]
      · exact objLookup_objInsert_same _ _ _
      · intro l'
        have := h ⟨l'.val + 1, by simp only [List.length_cons]; exact Nat.succ_lt_succ l'.isLt⟩
          (Nat.succ_pos l'.val)
        have harith : i + (l'.val + 1) = i + 1 + l'.val := by omega
        simpa [harith] using this
    | succ jw =>
      have hjw : jw < l.length := by simpa using Nat.lt_of_succ_lt_succ hj
      have hget : ((f :: l).get ⟨jw + 1, hj⟩) = l.get ⟨jw, hjw⟩ := rfl
      have harith : i + (jw + 1) = i + 1 + jw := by omega
      show objLookup (buildIdMapAux l (i + 1) (objInsert m (featureKey f i) i))
        (featureKey ((f :: l).get ⟨jw + 1, hj⟩) (i + (jw + 1))) = some (i + (jw + 1))
      rw [hget, harith]
      exact ih (i + 1) _ ⟨jw, hjw⟩ (by
        intro l' hl'
        have := h ⟨l'.val + 1, by simp only [List.length_cons]; exact Nat.succ_lt_succ l'.isLt⟩
          (Nat.succ_lt_succ hl')
        have ha1 : i + (l'.val + 1) = i + 1 + l'.val := by omega
        have ha2 : i + (jw + 1) = i + 1 + jw := by omega
        simpa [ha1, ha2] using this)

lemma objInsert_mem (m : List (String × Nat)) (k : String) (v : Nat)
    (e : String × Nat) (he : e ∈ objInsert m k v) : e ∈ m ∨ e.2 = v := by
  unfold objInsert at he
  by_cases h : m.any (fun x => x.1 = k)
  · rw [if_pos h] at he
    rcases List.mem_map.mp he with ⟨a, ha, hae⟩
    by_cases hk : a.1 = k
    · rw [if_pos hk] at hae
      right
      rw [← hae]
    · rw [if_neg hk] at hae
      left
      rw [← hae]
      exact ha
  · rw [if_neg h] at he
    rcases List.mem_append.mp he with h' | h'
    · exact Or.inl h'
    · right
      rw [List.mem_singleton.mp h']

lemma buildIdMapAux_bound (fs : List RawFeature) (i : Nat)
    (m : List (String × Nat)) (hm : ∀ e ∈ m, e.2 < i) :
    ∀ e ∈ buildIdMapAux fs i m, e.2 < i + fs.length := by
  induction fs generalizing i m with
  | nil => intro e he; exact Nat.lt_of_lt_of_le (hm e he) (Nat.le_add_right _ _)
  | cons f l ih =>
    intro e he
    have hstep : ∀ x ∈ objInsert m (featureKey f i) i, x.2 < i + 1 := by
      intro x hx
      rcases objInsert_mem _ _ _ _ hx with h' | h'
      · exact Nat.lt_succ_of_lt (hm x h')
      · omega
    have := ih (i + 1) _ hstep e he
    simp only [List.length_cons]
    omega

/-- Features with a duplicate natural key followed by a key-less feature
with a numeric id; used to witness last-wins and the id fallback. -/
def dupFeatures : List RawFeature :=
  [{ name := some "Twin Peaks" }, { name := some "Twin Peaks" },
   { fid := some (JsId.num 7) }]

/-- Claim C6: the Region Index build.  The key of the feature at position
`i` is its name property when that is present, else the string coercion of
its `id` when present, else the decimal string of `i`; every slot stored in
the index is in `[0, count)`; and the index maps the key of position `j` to
slot `j` whenever no later feature derives the same key — so on duplicate
keys the last-seen feature's slot wins, with no error and no
deduplication. -/
theorem region_index_build (fs : List RawFeature) (f : RawFeature) (i : Nat)
    (s : String) (d : JsId) (j : Fin fs.length)
    (hlast : ∀ l : Fin fs.length, j.val < l.val →
      featureKey (fs.get l) l.val ≠ featureKey (fs.get j) j.val) :
    (nameProp f = some s → featureKey f i = s)
    ∧ (nameProp f = none → f.fid = some d → featureKey f i = d.toStr)
    ∧ (nameProp f = none → f.fid = none → featureKey f i = toString i)
    ∧ (∀ e ∈ buildIdMap fs, e.2 < fs.length)
    ∧ objLookup (buildIdMap fs) (featureKey (fs.get j) j.val) = some j.val := by
  refine ⟨?_, ?_, ?_, ?_, ?_⟩
  · intro h
    simp [featureKey, h]
  · intro h1 h2
    simp [featureKey, h1, h2]
  · intro h1 h2
    simp [featureKey, h1, h2]
  · have := buildIdMapAux_bound fs 0 [] (by intro e he; cases he)
    simpa using this
  · have := buildIdMapAux_last fs 0 [] j (by
      intro l hl
      have := hlast l hl
      simpa using this)
    simpa using this

/-- Witness for C6 on `dupFeatures`: the key `"Twin Peaks"` is shared by
positions 0 and 1, and the index resolves it to slot 1 (last seen wins). -/
theorem region_index_build_witness :
    objLookup (buildIdMap dupFeatures)
      (featureKey (dupFeatures.get ⟨1, by decide⟩) 1) = some 1 :=
  (region_index_build dupFeatures ⟨none, none, none⟩ 0 "" (JsId.num 0)
    ⟨1, by decide⟩ (by decide)).2.2.2.2

lemma runEpochs_eq (n c : Nat) :
    runEpochs n c = (c + n, (List.range n).map (fun i => c + i + 1)) := by
  induction n generalizing c with
  | zero => simp [runEpochs]
  | succ m ih =>
    simp only [runEpochs, ih (c + 1)]
    refine congrArg₂ Prod.mk (by omega) ?_
    rw [List.range_succ_eq_map, List.map_cons, List.map_map]
    refine congrArg₂ List.cons (by omega) ?_
    refine List.map_congr_left ?_
    intro a _
    simp [Function.comp]
    omega

/-- Claim C7: the Request Sequencer contract.  Successive `nextEpoch` calls
from the initial counter `0` issue exactly the epochs `1, 2, ..., n` — a
strictly increasing sequence starting at 1 with no value issued twice —
leaving the counter at the last issued epoch; `isCurrent e c` holds iff `e`
is the current counter value; and issuing a new epoch invalidates the
previously current one. -/
theorem request_sequencer_contract (n : Nat) (hn : 0 < n) (e c : Nat) :
    (runEpochs n 0).2 = (List.range n).map (fun i => i + 1)
    ∧ List.Chain' (fun a b => a < b) (runEpochs n 0).2
    ∧ (runEpochs n 0).2.Nodup
    ∧ (runEpochs n 0).2.head? = some 1
    ∧ (runEpochs n 0).1 = n
    ∧ (runEpochs n 0).2.getLast? = some n
    ∧ (isCurrent e c = true ↔ e = c)
    ∧ isCurrent c c = true
    ∧ isCurrent c (nextEpoch c).2 = false := by
  have hrun := runEpochs_eq n 0
  have hlist : (runEpochs n 0).2 = (List.range n).map (fun i => i + 1) := by
    rw [hrun]
    exact List.map_congr_left (fun a _ => by omega)
  have hpair : List.Pairwise (fun a b => a < b) (runEpochs n 0).2 := by
    rw [hlist]
    exact (List.pairwise_lt_range n).map _ (fun a b h => by omega)
  refine ⟨hlist, hpair.chain', ?_, ?_, ?_, ?_, ?_, ?_, ?_⟩
  · exact hpair.imp Nat.ne_of_lt
  · rw [hlist]
    rcases n with _ | m
    · omega
    · rw [List.range_succ_eq_map]
      rfl
  · rw [hrun]
    simp
  · rw [hlist]
    rcases n with _ | m
    · omega
    · rw [List.range_succ, List.map_append]
      simp
  · simp [isCurrent]
  · simp [isCurrent]
  · simp [isCurrent, nextEpoch]

/-- Witness for C7 at `n = 3`: the issued epochs are `[1, 2, 3]`. -/
theorem request_sequencer_contract_witness :
    (runEpochs 3 0).2 = [1, 2, 3] :=
  (request_sequencer_contract 3 (by decide) 2 2).1.trans (by decide)
